import Mathlib

/-!
Verification development for the gofer gateway (a local HTTP gateway that
renders the legacy Gopher directory protocol for web browsers).

The definitions below shallowly embed the record-parsing phase of
formatMenuHTML, the transport functions gopherRequestBytes (current) and
gopherRequest (legacy), the PH and search HTTP handler decision logic,
the focus handler, the inactivity monitor arithmetic, and the link
construction plus query parsing used by the navigation round trip.
Strings are modelled as Lean String values; machine I/O outcomes are
modelled by explicit outcome parameters; a Go runtime panic is modelled
as the value none.
-/

/-- Whitespace set of the Go function strings.TrimSpace (unicode.IsSpace
over the characters that can appear here). -/
def isGoSpace (c : Char) : Bool :=
  c = ' ' || c = '\t' || c = '\n' || c = '\u000B' || c = '\u000C' || c = '\r' ||
  c = '\u0085' || c = ' '

/-- Drop characters satisfying p from the right end of a list. -/
def dropRightWhile (p : Char → Bool) (l : List Char) : List Char :=
  (l.reverse.dropWhile p).reverse

/-- Model of strings.TrimSpace on the character list. -/
def trimList (l : List Char) : List Char :=
  dropRightWhile isGoSpace (l.dropWhile isGoSpace)

/-- Model of strings.TrimSpace. -/
def goTrimSpace (s : String) : String := ⟨trimList s.toList⟩

/-- The cutset of the strings.TrimRight call on the display string in
formatMenuHTML: space, tab and carriage return. -/
def isMenuCutset (c : Char) : Bool :=
  c = ' ' || c = '\t' || c = '\r'

/-- Model of strings.Split with a one-character separator: splits at every
occurrence, keeping empty segments, and always returns at least one
segment. -/
def splitCh (sep : Char) : List Char → List (List Char)
  | [] => [[]]
  | c :: cs =>
    if c = sep then [] :: splitCh sep cs
    else
      match splitCh sep cs with
      | [] => [[c]]
      | g :: gs => (c :: g) :: gs

/-- Model of strings.Split on tab applied to a String, as used on each
directory line. -/
def goSplitTab (s : String) : List String :=
  (splitCh '\t' s.toList).map (fun l => ⟨l⟩)

/-- One entry of a directory listing, as constructed by the parsing phase
of formatMenuHTML. -/
structure DirectoryRecord where
  itemType : Char
  display : String
  selector : String
  host : String
  port : String
deriving DecidableEq, Repr

/-- The record constructed from one non-blank, non-terminator line of the
raw reply (formatMenuHTML, part_003 lines 253 to 283).  Returns none where
the Go code panics: the index expression on the first field when that
field is empty.  Returns some none when the line is dropped because the
right-trimmed display string is empty. -/
def parseMenuLine (currentHost currentPort : String) (line : List Char) :
    Option (Option DirectoryRecord) :=
  let fields := splitCh '\t' line
  let core : Option (Char × List Char × String × String × String) :=
    if fields.length < 4 then
      some ('3', "Malformed Line (Type 3 Error): ".toList ++ trimList line, "/",
        currentHost, currentPort)
    else
      match fields.headD [] with
      | [] => none
      | c :: restOfFirst =>
        some (c, restOfFirst, ⟨fields.getD 1 []⟩, ⟨fields.getD 2 []⟩,
          ⟨fields.getD 3 []⟩)
  match core with
  | none => none
  | some (t, d, sel, h, p) =>
    let d2 := dropRightWhile isMenuCutset d
    if d2 = [] then some none
    else some (some ⟨t, ⟨d2⟩, sel, h, p⟩)

/-- The line loop of formatMenuHTML (part_003 lines 242 to 285): skip blank
lines, stop at the lone terminator dot, otherwise build a record per line.
none models a Go panic inside the loop. -/
def parseMenuLines (h p : String) : List (List Char) → Option (List DirectoryRecord)
  | [] => some []
  | line :: rest =>
    if trimList line = [] then parseMenuLines h p rest
    else if trimList line = ['.'] then some []
    else
      match parseMenuLine h p line with
      | none => none
      | some none => parseMenuLines h p rest
      | some (some r) => (parseMenuLines h p rest).map (r :: ·)

/-- The record-construction phase of formatMenuHTML (part_003 lines 239 to
285): split the raw reply on newlines and run the line loop.  The HTML
emission around the records is presentation only and is not modelled. -/
def formatMenuRecords (raw currentHost currentPort : String) :
    Option (List DirectoryRecord) :=
  parseMenuLines currentHost currentPort (splitCh '\n' raw.toList)

example : formatMenuRecords "1A Directory\t/sub\texample.org\t70\n.\n"
    "example.org" "70" =
    some [⟨'1', "A Directory", "/sub", "example.org", "70"⟩] := by decide

example : formatMenuRecords "badline\n" "h" "p" =
    some [⟨'3', "Malformed Line (Type 3 Error): badline", "/", "h", "p"⟩] := by
  decide

example : formatMenuRecords "\t/sub\thost\t70" "h" "p" = none := by decide

example : formatMenuRecords "1 \t/\th\t70" "ch" "cp" = some [] := by decide

/-! ### List lemmas about the split and trim models -/

theorem splitCh_ne_nil (sep : Char) (l : List Char) : splitCh sep l ≠ [] := by
  induction l with
  | nil => simp [splitCh]
  | cons c cs ih =>
    simp only [splitCh]
    split
    · simp
    · split
      · simp
      · simp

theorem splitCh_no_sep (sep : Char) (l : List Char) (h : ∀ c ∈ l, c ≠ sep) :
    splitCh sep l = [l] := by
  induction l with
  | nil => rfl
  | cons c cs ih =>
    have hc : c ≠ sep := h c (by simp)
    have ih2 := ih (fun x hx => h x (by simp [hx]))
    simp only [splitCh, if_neg hc, ih2]

theorem splitCh_append (sep : Char) (l1 l2 : List Char) (h : ∀ c ∈ l1, c ≠ sep) :
    splitCh sep (l1 ++ sep :: l2) = l1 :: splitCh sep l2 := by
  induction l1 with
  | nil => simp [splitCh]
  | cons c cs ih =>
    have hc : c ≠ sep := h c (by simp)
    have ih2 := ih (fun x hx => h x (by simp [hx]))
    simp only [List.cons_append, splitCh, if_neg hc, List.append_eq, ih2]

theorem mem_dropWhile_of_not (p : Char → Bool) (l : List Char) (c : Char)
    (hc : c ∈ l) (hp : p c = false) : c ∈ l.dropWhile p := by
  induction l with
  | nil => cases hc
  | cons a as ih =>
    rw [List.dropWhile_cons]
    by_cases ha : p a = true
    · rw [if_pos ha]
      rcases List.mem_cons.mp hc with h | h
      · subst h; rw [hp] at ha; cases ha
      · exact ih h
    · rw [if_neg ha]; exact hc

theorem mem_dropRightWhile_of_not (p : Char → Bool) (l : List Char) (c : Char)
    (hc : c ∈ l) (hp : p c = false) : c ∈ dropRightWhile p l := by
  unfold dropRightWhile
  rw [List.mem_reverse]
  exact mem_dropWhile_of_not p l.reverse c (List.mem_reverse.mpr hc) hp

theorem mem_trimList_of_not (l : List Char) (c : Char) (hc : c ∈ l)
    (hp : isGoSpace c = false) : c ∈ trimList l := by
  unfold trimList
  exact mem_dropRightWhile_of_not _ _ _ (mem_dropWhile_of_not _ _ _ hc hp) hp

theorem dropWhile_head_not (p : Char → Bool) (l : List Char) (a : Char)
    (as : List Char) (h : l.dropWhile p = a :: as) : p a = false := by
  induction l with
  | nil => simp [List.dropWhile] at h
  | cons b bs ih =>
    rw [List.dropWhile_cons] at h
    by_cases hb : p b = true
    · rw [if_pos hb] at h; exact ih h
    · rw [if_neg hb] at h
      cases h
      exact Bool.not_eq_true _ ▸ (by simpa using hb)

theorem dropWhile_dropWhile_of_imp (p q : Char → Bool)
    (himp : ∀ c, q c = true → p c = true) (l : List Char) :
    (l.dropWhile p).dropWhile q = l.dropWhile p := by
  cases h : l.dropWhile p with
  | nil => rfl
  | cons a as =>
    have hpa : p a = false := dropWhile_head_not p l a as h
    have hqa : ¬ q a = true := by
      intro hq
      rw [himp a hq] at hpa
      cases hpa
    rw [List.dropWhile_cons, if_neg hqa]

theorem dropRightWhile_dropRightWhile_of_imp (p q : Char → Bool)
    (himp : ∀ c, q c = true → p c = true) (l : List Char) :
    dropRightWhile q (dropRightWhile p l) = dropRightWhile p l := by
  unfold dropRightWhile
  rw [List.reverse_reverse, dropWhile_dropWhile_of_imp p q himp]

theorem dropWhile_append_of_ne_nil (p : Char → Bool) (l1 l2 : List Char)
    (h : l1.dropWhile p ≠ []) :
    (l1 ++ l2).dropWhile p = l1.dropWhile p ++ l2 := by
  induction l1 with
  | nil => simp [List.dropWhile] at h
  | cons a as ih =>
    rw [List.dropWhile_cons] at h
    by_cases ha : p a = true
    · rw [if_pos ha] at h
      rw [List.cons_append, List.dropWhile_cons, List.dropWhile_cons,
        if_pos ha, if_pos ha]
      exact ih h
    · rw [if_neg ha] at h
      rw [List.cons_append, List.dropWhile_cons, List.dropWhile_cons,
        if_neg ha, if_neg ha]
      simp

theorem dropRightWhile_append_of_ne_nil (p : Char → Bool) (l1 l2 : List Char)
    (h : dropRightWhile p l2 ≠ []) :
    dropRightWhile p (l1 ++ l2) = l1 ++ dropRightWhile p l2 := by
  have h2 : l2.reverse.dropWhile p ≠ [] := by
    intro hx
    apply h
    unfold dropRightWhile
    rw [hx]
    rfl
  unfold dropRightWhile
  rw [List.reverse_append, dropWhile_append_of_ne_nil p _ _ h2,
    List.reverse_append, List.reverse_reverse]

theorem menuCutset_imp_goSpace : ∀ c, isMenuCutset c = true → isGoSpace c = true := by
  intro c hcut
  have hor : (c = ' ' ∨ c = '\t') ∨ c = '\r' := by
    simpa [isMenuCutset] using hcut
  rcases hor with (rfl | rfl) | rfl <;> decide

theorem append_mk_eq (s : String) (l : List Char) :
    s ++ (⟨l⟩ : String) = ⟨s.toList ++ l⟩ := by
  cases s; rfl

theorem dropRightWhile_menu_prefix_trim (pre l : List Char)
    (h : trimList l ≠ []) :
    dropRightWhile isMenuCutset (pre ++ trimList l) = pre ++ trimList l := by
  have h1 : dropRightWhile isMenuCutset (trimList l) = trimList l := by
    unfold trimList
    exact dropRightWhile_dropRightWhile_of_imp isGoSpace isMenuCutset
      menuCutset_imp_goSpace _
  rw [dropRightWhile_append_of_ne_nil isMenuCutset pre (trimList l)
    (by rw [h1]; exact h), h1]

/-- C1: every input line with fewer than four tab-separated fields that is
neither blank nor the lone terminator dot parses to exactly one synthetic
record with itemType 3, a diagnostic display embedding the (trimmed)
offending line, selector "/", and host and port taken from the calling
navigation context, never from the malformed line. -/
theorem C1_malformed_line_synthetic_record (line ctxHost ctxPort : String)
    (hnl : ∀ c ∈ line.toList, c ≠ '\n')
    (hfields : (goSplitTab line).length < 4)
    (hblank : goTrimSpace line ≠ "")
    (hdot : goTrimSpace line ≠ ".") :
    formatMenuRecords line ctxHost ctxPort =
      some [⟨'3', "Malformed Line (Type 3 Error): " ++ goTrimSpace line, "/",
        ctxHost, ctxPort⟩] := by
  have htrim : trimList line.toList ≠ [] := by
    intro hx
    apply hblank
    show (⟨trimList line.toList⟩ : String) = ""
    rw [hx]
  have htrimdot : trimList line.toList ≠ ['.'] := by
    intro hx
    apply hdot
    show (⟨trimList line.toList⟩ : String) = "."
    rw [hx]
  have hlen : (splitCh '\t' line.toList).length < 4 := by
    have he : (goSplitTab line).length = (splitCh '\t' line.toList).length := by
      unfold goSplitTab
      exact List.length_map _ _
    rw [he] at hfields
    exact hfields
  have hpre : ("Malformed Line (Type 3 Error): ".toList ++ trimList line.toList) ≠ [] := by
    simp
  unfold formatMenuRecords
  rw [splitCh_no_sep '\n' line.toList hnl]
  simp only [parseMenuLines, if_neg htrim, if_neg htrimdot]
  simp only [parseMenuLine, if_pos hlen]
  simp only [dropRightWhile_menu_prefix_trim _ _ htrim, if_neg hpre,
    Option.map_some]
  show some [(⟨'3', ⟨"Malformed Line (Type 3 Error): ".toList ++ trimList line.toList⟩,
    "/", ctxHost, ctxPort⟩ : DirectoryRecord)] = _
  rw [append_mk_eq]
  rfl

/-- Witness for C1 at the spec scenario input badline under context
(host=h, port=p). -/
theorem C1_witness :
    formatMenuRecords "badline" "h" "p" =
      some [⟨'3', "Malformed Line (Type 3 Error): " ++ goTrimSpace "badline", "/",
        "h", "p"⟩] :=
  C1_malformed_line_synthetic_record "badline" "h" "p" (by decide) (by decide)
    (by decide) (by decide)

theorem mk_toList (s : String) : (⟨s.toList⟩ : String) = s := by
  cases s; rfl

theorem parseMenuLine_wellformed (ch cp : String) (line : List Char)
    (c : Char) (d f1 f2 f3 : List Char)
    (hsplit : splitCh '\t' line = [c :: d, f1, f2, f3])
    (hne : dropRightWhile isMenuCutset d ≠ []) :
    parseMenuLine ch cp line =
      some (some ⟨c, ⟨dropRightWhile isMenuCutset d⟩, ⟨f1⟩, ⟨f2⟩, ⟨f3⟩⟩) := by
  have h4 : ¬ (([c :: d, f1, f2, f3] : List (List Char)).length < 4) := by simp
  simp only [parseMenuLine, hsplit, if_neg h4, List.headD_cons,
    List.getD_cons_succ, List.getD_cons_zero]
  rw [if_neg hne]

/-- C3 counterexample: the literal claim predicts exactly one record for
every four-field line, with display equal to the remainder of the first
field.  The four-field line with first field consisting of the type tag and
a single space produces zero records, because the code right-trims the
display and drops records whose trimmed display is empty. -/
theorem C3_counterexample :
    formatMenuRecords "1 \t/\th\t70" "ch" "cp" = some [] ∧
    some ([] : List DirectoryRecord) ≠
      some [⟨'1', " ", "/", "h", "70"⟩] := by
  constructor
  · decide
  · decide

/-- C3 (amended): for every four-field line whose first field is nonempty
and whose display remainder is nonempty after right-trimming spaces, tabs
and carriage returns, parse yields exactly one record whose itemType is the
first character of the first field, whose display is the right-trimmed
remainder of the first field, and whose selector, host and port are the
second, third and fourth fields; and the spec scenario input produces the
single record of the claim. -/
theorem C3_wellformed_line_record (line ctxHost ctxPort f0 f1 f2 f3 : String)
    (c : Char) (d : List Char)
    (hnl : ∀ ch ∈ line.toList, ch ≠ '\n')
    (hsplit : goSplitTab line = [f0, f1, f2, f3])
    (hf0 : f0.toList = c :: d)
    (hblank : goTrimSpace line ≠ "")
    (hdot : goTrimSpace line ≠ ".")
    (hdisp : dropRightWhile isMenuCutset d ≠ []) :
    formatMenuRecords line ctxHost ctxPort =
      some [⟨c, ⟨dropRightWhile isMenuCutset d⟩, f1, f2, f3⟩] ∧
    formatMenuRecords "1A Directory\t/sub\texample.org\t70\n.\n" "example.org"
      "70" = some [⟨'1', "A Directory", "/sub", "example.org", "70"⟩] := by
  refine ⟨?_, by decide⟩
  have hsplit2 : splitCh '\t' line.toList =
      [f0.toList, f1.toList, f2.toList, f3.toList] := by
    have h2 := congrArg (List.map String.toList) hsplit
    unfold goSplitTab at h2
    rw [List.map_map] at h2
    have hcomp : (String.toList ∘ fun l : List Char => (⟨l⟩ : String)) = id :=
      funext (fun _ => rfl)
    rw [hcomp, List.map_id] at h2
    simpa using h2
  have htrim : trimList line.toList ≠ [] := by
    intro hx
    apply hblank
    show (⟨trimList line.toList⟩ : String) = ""
    rw [hx]
  have htrimdot : trimList line.toList ≠ ['.'] := by
    intro hx
    apply hdot
    show (⟨trimList line.toList⟩ : String) = "."
    rw [hx]
  rw [hf0] at hsplit2
  unfold formatMenuRecords
  rw [splitCh_no_sep '\n' line.toList hnl]
  simp only [parseMenuLines, if_neg htrim, if_neg htrimdot]
  rw [parseMenuLine_wellformed ctxHost ctxPort line.toList c d f1.toList
    f2.toList f3.toList hsplit2 hdisp]
  rfl

/-- Witness for C3 at the spec scenario: the single well-formed line alone
through the amended universal statement, and the full scenario input. -/
theorem C3_witness :
    formatMenuRecords "1A Directory\t/sub\texample.org\t70" "example.org" "70" =
      some [⟨'1', ⟨dropRightWhile isMenuCutset "A Directory".toList⟩, "/sub",
        "example.org", "70"⟩] ∧
    formatMenuRecords "1A Directory\t/sub\texample.org\t70\n.\n" "example.org"
      "70" = some [⟨'1', "A Directory", "/sub", "example.org", "70"⟩] :=
  C3_wellformed_line_record "1A Directory\t/sub\texample.org\t70" "example.org"
    "70" "1A Directory" "/sub" "example.org" "70" '1' "A Directory".toList
    (by decide) (by decide) (by decide) (by decide) (by decide) (by decide)

/-- C10: the directory parser is not total.  A line with four or more
tab-separated fields whose first field is empty (a line beginning with a
tab) drives the Go expression fields[0][0] into an index-out-of-range
panic, modelled here as the none result. -/
theorem C10_panic_on_empty_first_field :
    formatMenuRecords "\t/sub\thost\t70" "h" "p" = none := by decide

theorem toList_append (a b : String) :
    (a ++ b).toList = a.toList ++ b.toList := by
  cases a; cases b; rfl

/-! ### Transport client models -/

/-- Possible ends of the read phase of a transport fetch, once a connection
was established and the request line written. -/
inductive ReadEnd
  | eof
  | timeout
  | otherErr
deriving DecidableEq, Repr

/-- One abstract transport interaction: whether the dial succeeded, whether
the write of the request line succeeded, the data received before the read
ended, and how the read ended. -/
structure FetchAttempt where
  connectOk : Bool
  writeOk : Bool
  collected : String
  readEnd : ReadEnd
deriving DecidableEq, Repr

/-- The error taxonomy of the transport clients. -/
inductive TransportError
  | connectFailed
  | writeFailed
  | readTimeout
  | readFailed
deriving DecidableEq, Repr

/-- Model of gopherRequestBytes (part_003 lines 86 to 115): dial failure
and write failure are errors; the read collects until EOF; a net timeout
during the read is reported as the explicit socket-timeout error; any
other read error is also an error. -/
def gopherRequestBytes (a : FetchAttempt) : Except TransportError String :=
  if a.connectOk = false then .error .connectFailed
  else if a.writeOk = false then .error .writeFailed
  else
    match a.readEnd with
    | .eof => .ok a.collected
    | .timeout => .error .readTimeout
    | .otherErr => .error .readFailed

/-- Model of the legacy gopherRequest (gofer.go lines 81 to 128): same dial
and write handling, but a net timeout during the read breaks the loop and
the data collected so far is returned with no error. -/
def gopherRequest (a : FetchAttempt) : Except TransportError String :=
  if a.connectOk = false then .error .connectFailed
  else if a.writeOk = false then .error .writeFailed
  else
    match a.readEnd with
    | .eof => .ok a.collected
    | .timeout => .ok a.collected
    | .otherErr => .error .readFailed

/-- C2 counterexample: for the current gopherRequestBytes, a read deadline
expiry after a successful connect and write does not return the collected
bytes without error, contrary to the claim; it returns the socket-timeout
transport error. -/
theorem C2_counterexample :
    gopherRequestBytes ⟨true, true, "data so far", ReadEnd.timeout⟩ ≠
      Except.ok "data so far" := by
  intro h
  have h2 : (Except.error TransportError.readTimeout :
      Except TransportError String) = Except.ok "data so far" := h
  exact Except.noConfusion h2

/-- C2 (amended): once a connection has been established and the request
line written, a read deadline expiry is treated as a successful end of
reply by the legacy gopherRequest of gofer.go, which returns the bytes
collected so far with no error; the current gopherRequestBytes of part_003
instead reports it as a socket-timeout transport error. -/
theorem C2_timeout_read_behavior (a : FetchAttempt)
    (hc : a.connectOk = true) (hw : a.writeOk = true)
    (ht : a.readEnd = ReadEnd.timeout) :
    gopherRequest a = Except.ok a.collected ∧
    gopherRequestBytes a = Except.error TransportError.readTimeout := by
  obtain ⟨c, w, col, re⟩ := a
  simp only at hc hw ht
  subst hc
  subst hw
  subst ht
  exact ⟨rfl, rfl⟩

/-- Witness for C2 at a concrete interrupted fetch. -/
theorem C2_witness :
    gopherRequest ⟨true, true, "hi", ReadEnd.timeout⟩ = Except.ok "hi" ∧
    gopherRequestBytes ⟨true, true, "hi", ReadEnd.timeout⟩ =
      Except.error TransportError.readTimeout :=
  C2_timeout_read_behavior ⟨true, true, "hi", ReadEnd.timeout⟩ rfl rfl rfl

/-! ### The synthetic listing built by serveGopher on a fetch failure -/

/-- The synthetic one-line reply built by serveGopher when the top-level
fetch fails (part_003 lines 474 and 502): a type 3 line carrying the error
text, selector /, and the requested host and port, terminated by the lone
dot line. -/
def syntheticConnFail (errMsg host port : String) : String :=
  "3Connection failed: " ++ errMsg ++ "\t/\t" ++ host ++ "\t" ++ port ++ "\n.\n"

theorem forall_mem_append_char {P : Char → Prop} {A B : List Char}
    (hA : ∀ c ∈ A, P c) (hB : ∀ c ∈ B, P c) : ∀ c ∈ A ++ B, P c :=
  fun c hc => (List.mem_append.mp hc).elim (hA c) (hB c)

theorem forall_mem_cons_char {P : Char → Prop} {a : Char} {A : List Char}
    (ha : P a) (hA : ∀ c ∈ A, P c) : ∀ c ∈ a :: A, P c := by
  intro c hc
  rcases List.mem_cons.mp hc with rfl | hc
  · exact ha
  · exact hA c hc

/-- C4: when the top-level fetch of serveGopher fails, the handler builds
the synthetic reply under the requested host and port and renders it
instead of aborting; the synthetic reply parses to exactly one type 3
record whose display carries the failure text inline, whose selector is /,
and whose host and port are the requested ones. -/
theorem C4_fetch_failure_synthetic_listing (e h p : String)
    (he : ∀ c ∈ e.toList, c ≠ '\t' ∧ c ≠ '\n')
    (hh : ∀ c ∈ h.toList, c ≠ '\t' ∧ c ≠ '\n')
    (hp : ∀ c ∈ p.toList, c ≠ '\t' ∧ c ≠ '\n') :
    formatMenuRecords (syntheticConnFail e h p) h p =
      some [⟨'3',
        ⟨dropRightWhile isMenuCutset ("Connection failed: ".toList ++ e.toList)⟩,
        "/", h, p⟩] := by
  have lit1 : "\t/\t".toList = '\t' :: '/' :: '\t' :: [] := rfl
  have lit2 : "\t".toList = ['\t'] := rfl
  have lit3 : "\n.\n".toList = '\n' :: '.' :: '\n' :: [] := rfl
  have lit4 : "3Connection failed: ".toList =
      '3' :: "Connection failed: ".toList := rfl
  have hlist : (syntheticConnFail e h p).toList =
      (('3' :: ("Connection failed: ".toList ++ e.toList)) ++ '\t' ::
        ('/' :: '\t' :: (h.toList ++ '\t' :: p.toList))) ++
        '\n' :: '.' :: '\n' :: ([] : List Char) := by
    simp only [syntheticConnFail, toList_append, lit1, lit2, lit3, lit4,
      List.cons_append, List.append_assoc, List.nil_append, List.append_nil]
  have hlitNoNL : ∀ c ∈ "Connection failed: ".toList, c ≠ '\n' := by decide
  have hlitNoTab : ∀ c ∈ "Connection failed: ".toList, c ≠ '\t' := by decide
  have hnoNL : ∀ c ∈ (('3' :: ("Connection failed: ".toList ++ e.toList)) ++
      '\t' :: ('/' :: '\t' :: (h.toList ++ '\t' :: p.toList))), c ≠ '\n' := by
    refine forall_mem_append_char
      (forall_mem_cons_char (by decide)
        (forall_mem_append_char hlitNoNL (fun c hc => (he c hc).2)))
      (forall_mem_cons_char (by decide)
        (forall_mem_cons_char (by decide)
          (forall_mem_cons_char (by decide)
            (forall_mem_append_char (fun c hc => (hh c hc).2)
              (forall_mem_cons_char (by decide) (fun c hc => (hp c hc).2))))))
  have h3mem : '3' ∈ ('3' :: ("Connection failed: ".toList ++ e.toList)) ++
      '\t' :: ('/' :: '\t' :: (h.toList ++ '\t' :: p.toList)) :=
    List.mem_append_left _ (List.mem_cons_self _ _)
  have h3trim : '3' ∈ trimList ((('3' :: ("Connection failed: ".toList ++
      e.toList)) ++ '\t' :: ('/' :: '\t' :: (h.toList ++ '\t' :: p.toList)))) :=
    mem_trimList_of_not _ '3' h3mem (by decide)
  have htrim : trimList ((('3' :: ("Connection failed: ".toList ++ e.toList)) ++
      '\t' :: ('/' :: '\t' :: (h.toList ++ '\t' :: p.toList)))) ≠ [] := by
    intro hx
    rw [hx] at h3trim
    exact absurd h3trim (List.not_mem_nil _)
  have htrimdot : trimList ((('3' :: ("Connection failed: ".toList ++
      e.toList)) ++ '\t' :: ('/' :: '\t' :: (h.toList ++ '\t' :: p.toList)))) ≠
      ['.'] := by
    intro hx
    rw [hx] at h3trim
    have h31 : '3' = '.' := List.mem_singleton.mp h3trim
    exact absurd h31 (by decide)
  have hsplitC : splitCh '\t' (h.toList ++ '\t' :: p.toList) =
      [h.toList, p.toList] := by
    rw [splitCh_append '\t' _ _ (fun c hc => (hh c hc).1),
      splitCh_no_sep '\t' _ (fun c hc => (hp c hc).1)]
  have hsplitB : splitCh '\t' ('/' :: '\t' :: (h.toList ++ '\t' :: p.toList)) =
      [['/'], h.toList, p.toList] := by
    have hB : ('/' :: '\t' :: (h.toList ++ '\t' :: p.toList)) =
        ['/'] ++ '\t' :: (h.toList ++ '\t' :: p.toList) := rfl
    rw [hB, splitCh_append '\t' _ _ (by decide), hsplitC]
  have hsplitTab : splitCh '\t' ((('3' :: ("Connection failed: ".toList ++
      e.toList)) ++ '\t' :: ('/' :: '\t' :: (h.toList ++ '\t' :: p.toList)))) =
      ['3' :: ("Connection failed: ".toList ++ e.toList), ['/'], h.toList,
        p.toList] := by
    rw [splitCh_append '\t' _ _
      (forall_mem_cons_char (by decide)
        (forall_mem_append_char hlitNoTab (fun c hc => (he c hc).1))), hsplitB]
  have hCmem : 'C' ∈ "Connection failed: ".toList ++ e.toList := by
    exact List.mem_append_left _ (by decide)
  have hne : dropRightWhile isMenuCutset
      ("Connection failed: ".toList ++ e.toList) ≠ [] := by
    intro hx
    have hm := mem_dropRightWhile_of_not isMenuCutset _ 'C' hCmem (by decide)
    rw [hx] at hm
    exact absurd hm (List.not_mem_nil _)
  have hrest : splitCh '\n' ('.' :: '\n' :: ([] : List Char)) = [['.'], []] := by
    decide
  unfold formatMenuRecords
  rw [hlist, splitCh_append '\n' _ _ hnoNL, hrest]
  simp only [parseMenuLines, if_neg htrim, if_neg htrimdot]
  rw [parseMenuLine_wellformed h p _ '3'
    ("Connection failed: ".toList ++ e.toList) ['/'] h.toList p.toList
    hsplitTab hne]
  rfl

/-- Witness for C4 at a concrete failed fetch. -/
theorem C4_witness :
    formatMenuRecords (syntheticConnFail "connection refused" "example.org" "70")
      "example.org" "70" =
      some [⟨'3',
        ⟨dropRightWhile isMenuCutset
          ("Connection failed: ".toList ++ "connection refused".toList)⟩,
        "/", "example.org", "70"⟩] :=
  C4_fetch_failure_synthetic_listing "connection refused" "example.org" "70"
    (by decide) (by decide) (by decide)

/-! ### Inactivity monitor model -/

/-- Tick times of the inactivity monitor in seconds: the Go ticker of
monitorInactivity fires every 5 seconds, the first tick 5 seconds after the
monitor starts. -/
def tickTime (k : ℕ) : ℚ := 5 * (k + 1)

/-- The shutdown test of monitorInactivity (part_003 lines 51 to 59): the
process exits when the idle duration strictly exceeds the 60 second
threshold. -/
def idleExceeded (idle : ℚ) : Bool := decide (60 < idle)

/-- True when no tick with index strictly below k fires for a process whose
last activity was at time a. -/
def noFireBefore (a : ℚ) (k : ℕ) : Bool :=
  (List.range k).all (fun j => ! idleExceeded (tickTime j - a))

theorem idleExceeded_eq_false (x : ℚ) (h : x ≤ 60) : idleExceeded x = false := by
  unfold idleExceeded
  exact decide_eq_false (not_lt.mpr h)

theorem idleExceeded_eq_true (x : ℚ) (h : 60 < x) : idleExceeded x = true := by
  unfold idleExceeded
  exact decide_eq_true h

/-- C5 counterexample: with last activity at time 0 aligned with the tick
grid, no tick up to and including the one at 60 seconds fires (the
comparison is strict), the tick at 65 seconds fires, and the resulting
termination delay of 65 seconds is not strictly below 60 + 5 as the claim
requires. -/
theorem noFireBefore_grid_aligned : noFireBefore 0 12 = true := by
  simp only [noFireBefore, List.all_eq_true]
  intro j hj
  rw [List.mem_range] at hj
  rw [idleExceeded_eq_false]
  · rfl
  · have hc : (j : ℚ) ≤ 11 := by
      have h11 : j ≤ 11 := by omega
      exact_mod_cast h11
    unfold tickTime
    linarith

theorem fire_at_sixty_five : idleExceeded (tickTime 12 - 0) = true := by
  rw [idleExceeded_eq_true]
  norm_num [tickTime]

theorem C5_counterexample :
    noFireBefore 0 12 = true ∧ idleExceeded (tickTime 12 - 0) = true ∧
    ¬ (tickTime 12 - 0 < 60 + 5) :=
  ⟨noFireBefore_grid_aligned, fire_at_sixty_five, by norm_num [tickTime]⟩

/-- C5 (amended): the monitor wakes every 5 seconds and compares the idle
time against the 60 second threshold with a strict comparison; with no
further activity after time a, the first firing tick lies strictly more
than 60 and at most 60 + 5 seconds after a.  The delay reaches exactly
60 + 5 when a tick falls exactly 60 seconds after the last activity, so
the claimed strict upper bound is weakened to an inclusive one. -/
theorem C5_shutdown_window (a : ℚ) (k : ℕ) (ha : 0 ≤ a)
    (hfire : idleExceeded (tickTime k - a) = true)
    (hmin : noFireBefore a k = true) :
    60 < tickTime k - a ∧ tickTime k - a ≤ 60 + 5 := by
  have h1 : 60 < tickTime k - a := by
    unfold idleExceeded at hfire
    exact of_decide_eq_true hfire
  refine ⟨h1, ?_⟩
  by_contra hgt
  push_neg at hgt
  cases k with
  | zero =>
    have h5 : tickTime 0 = 5 := by norm_num [tickTime]
    rw [h5] at hgt
    linarith
  | succ j =>
    have hj : (! idleExceeded (tickTime j - a)) = true := by
      have hall := List.all_eq_true.mp hmin
      exact hall j (List.mem_range.mpr (Nat.lt_succ_self j))
    have hjf : idleExceeded (tickTime j - a) = false := by
      cases hx : idleExceeded (tickTime j - a)
      · rfl
      · rw [hx] at hj; cases hj
    have hlt : ¬ (60 < tickTime j - a) := by
      intro hc
      have : idleExceeded (tickTime j - a) = true := by
        unfold idleExceeded
        exact decide_eq_true hc
      rw [this] at hjf
      cases hjf
    apply hlt
    have ht : tickTime j = tickTime (j + 1) - 5 := by
      unfold tickTime
      push_cast
      ring
    rw [ht]
    linarith

/-- Witness for C5 at last activity time 0 and first firing tick index
12. -/
theorem C5_witness :
    60 < tickTime 12 - 0 ∧ tickTime 12 - 0 ≤ 60 + 5 :=
  C5_shutdown_window 0 12 (by norm_num) fire_at_sixty_five
    noFireBefore_grid_aligned

/-! ### Focus handler model -/

/-- Outcome of the url.Parse call inside handleFocus, supplied as an
explicit parameter of the model. -/
inductive ParsedURL
  | failed
  | parsedAs (scheme host port path : String)
deriving DecidableEq, Repr

/-- Response summary of the focus handler: the HTTP status written and
whether the handler reset the last-activity timestamp. -/
structure FocusResponse where
  status : Nat
  activityReset : Bool
deriving DecidableEq, Repr

/-- Model of handleFocus (part_003 lines 535 to 585): updateActivity runs
first unconditionally; an absent or empty uri parameter is answered with
400; a uri that fails to parse or is not of the gopher scheme is answered
with 400; otherwise the local URL is rebuilt, the browser is relaunched
and 200 is returned. -/
def handleFocus (uri : String) (parsed : ParsedURL) : FocusResponse :=
  if uri = "" then ⟨400, true⟩
  else
    match parsed with
    | .failed => ⟨400, true⟩
    | .parsedAs scheme _ _ _ =>
      if scheme ≠ "gopher" then ⟨400, true⟩ else ⟨200, true⟩

/-- C6: a forwarded focus request carrying no navigation target (the
Query.Get result for uri is the empty string when the parameter is
absent).  The code resets last-activity but answers 400, not a success
status: the handler rejects the bare keep-alive forward that main itself
sends when a secondary launch has no argument. -/
theorem C6_bare_focus_rejected (parsed : ParsedURL) :
    handleFocus "" parsed = ⟨400, true⟩ := rfl

/-! ### PH and search handler models -/

/-- True when the first list is a leading segment of the second. -/
def hasPre (pre l : List Char) : Bool :=
  match pre, l with
  | [], _ => true
  | a :: ps, b :: bs => a = b && hasPre ps bs
  | _, _ => false

/-- Model of strings.TrimPrefix on character lists: remove the leading
segment when present, otherwise return the list unchanged. -/
def stripPre (pre l : List Char) : List Char :=
  if hasPre pre l then l.drop pre.length else l

/-- Model of ParsePHRoute (part_004 lines 23 to 40): strip the /ph/ route
marker, split on colons, take the host from the first part and the port
from the second when present and nonempty, defaulting to the PH port 105.
The invalid-route branch of the source tests for an empty split result,
which strings.Split never produces. -/
def ParsePHRoute (path : String) : Except String (String × String) :=
  let trimmed := stripPre "/ph/".toList path.toList
  let parts := splitCh ':' trimmed
  if parts.length < 1 then .error ("invalid PH route: " ++ path)
  else
    .ok (⟨parts.headD []⟩,
      if 1 < parts.length ∧ parts.getD 1 [] ≠ [] then ⟨parts.getD 1 []⟩
      else "105")

/-- HTTP method of an inbound request, as distinguished by the handlers. -/
inductive Method
  | get
  | post
  | other
deriving DecidableEq, Repr

/-- Response summary of the PH and search handlers: the HTTP status
written and whether a transport connection was attempted. -/
structure HandlerTrace where
  status : Nat
  transportCalled : Bool
deriving DecidableEq, Repr

/-- Model of HandlePH (part_004 lines 69 to 116): route parse failure is
400; on POST, a form parse failure is 400 and an empty trimmed query is
400, both before any transport call; otherwise PHQuery runs, 502 on its
failure and 200 on success; on any other method PHInitialGreeting runs,
502 on its failure and 200 on success.  The results of the two transport
operations are supplied as parameters. -/
def HandlePH (path : String) (method : Method) (formParseOk : Bool)
    (formQuery : String) (queryResult : Except String String)
    (greetResult : Except String String) : HandlerTrace :=
  match ParsePHRoute path with
  | .error _ => ⟨400, false⟩
  | .ok _ =>
    match method with
    | .post =>
      if formParseOk = false then ⟨400, false⟩
      else if goTrimSpace formQuery = "" then ⟨400, false⟩
      else
        match queryResult with
        | .error _ => ⟨502, true⟩
        | .ok _ => ⟨200, true⟩
    | _ =>
      match greetResult with
      | .error _ => ⟨502, true⟩
      | .ok _ => ⟨200, true⟩

/-- Model of HandleSearch (part_005 lines 16 to 70): missing host, port or
selector is 400; GET renders the landing page with no transport call; on
POST, a form parse failure or an empty trimmed query is 400 before any
transport call, and otherwise SearchQuery runs, 502 on failure and 200 on
success; any other method is 405. -/
def HandleSearch (host port selector : String) (method : Method)
    (formParseOk : Bool) (formQuery : String)
    (searchResult : Except String String) : HandlerTrace :=
  if host = "" ∨ port = "" ∨ selector = "" then ⟨400, false⟩
  else
    match method with
    | .get => ⟨200, false⟩
    | .post =>
      if formParseOk = false then ⟨400, false⟩
      else if goTrimSpace formQuery = "" then ⟨400, false⟩
      else
        match searchResult with
        | .error _ => ⟨502, true⟩
        | .ok _ => ⟨200, true⟩
    | .other => ⟨405, false⟩

/-- C8: a POST to the directory-lookup endpoint or to the index-search
endpoint whose query form field is empty after trimming is answered with
HTTP 400 and no transport connection is attempted. -/
theorem C8_empty_query_400_no_transport (path host port selector q : String)
    (qr gr sr : Except String String)
    (hq : goTrimSpace q = "") :
    HandlePH path Method.post true q qr gr = ⟨400, false⟩ ∧
    HandleSearch host port selector Method.post true q sr = ⟨400, false⟩ := by
  constructor
  · unfold HandlePH
    cases hroute : ParsePHRoute path with
    | error e => rfl
    | ok hp =>
      rw [if_neg (by decide : ¬ (true = false)), if_pos hq]
  · unfold HandleSearch
    by_cases hmiss : host = "" ∨ port = "" ∨ selector = ""
    · rw [if_pos hmiss]
    · rw [if_neg hmiss]
      rw [if_neg (by decide : ¬ (true = false)), if_pos hq]

/-- Witness for C8 at a whitespace-only query. -/
theorem C8_witness :
    HandlePH "/ph/example.org:105" Method.post true "  "
      (Except.ok "r") (Except.ok "g") = ⟨400, false⟩ ∧
    HandleSearch "example.org" "70" "/v" Method.post true "  "
      (Except.ok "r") = ⟨400, false⟩ :=
  C8_empty_query_400_no_transport "/ph/example.org:105" "example.org" "70"
    "/v" "  " (Except.ok "r") (Except.ok "g") (Except.ok "r") (by decide)

/-- C9: a directory-lookup route with no host after the /ph/ route marker
is not rejected with 400 before transport.  ParsePHRoute accepts it with an
empty host, because its invalid-route branch is unreachable (the split
always returns at least one part), and the handler proceeds to the
transport greeting call, answering 502 on its failure. -/
theorem C9_missing_host_reaches_transport :
    ParsePHRoute "/ph/" = Except.ok ("", "105") ∧
    HandlePH "/ph/" Method.get true ""
      (Except.error "unused") (Except.error "PH connect failed") =
      ⟨502, true⟩ := by
  constructor
  · rfl
  · rfl

/-! ### Link construction and query parsing for the navigation round trip -/

/-- The characters Go url.QueryEscape leaves unescaped: letters, digits,
hyphen, underscore, dot and tilde. -/
def isQueryUnreserved (c : Char) : Bool :=
  c.isAlphanum || c = '-' || c = '_' || c = '.' || c = '~'

/-- Uppercase hexadecimal digit of a value below 16, by character code:
48 is the code of the zero digit and 65 the code of the letter A. -/
def upperHexDigit (n : ℕ) : Char :=
  Char.ofNat (if n < 10 then 48 + n else 55 + n)

/-- Go url.QueryEscape on one character, for single-byte (ASCII)
characters: unreserved characters pass through, space becomes a plus, and
everything else becomes a percent escape with uppercase hexadecimal
digits. -/
def queryEscapeChar (c : Char) : List Char :=
  if isQueryUnreserved c then [c]
  else if c = ' ' then ['+']
  else ['%', upperHexDigit (c.toNat / 16 % 16), upperHexDigit (c.toNat % 16)]

/-- Model of url.QueryEscape for ASCII strings. -/
def queryEscape (s : String) : String :=
  ⟨(s.toList.map queryEscapeChar).flatten⟩

/-- Value of a hexadecimal digit character, by character code: digits have
codes 48 to 57, uppercase letters A to F codes 65 to 70, lowercase a to f
codes 97 to 102. -/
def hexVal (c : Char) : Option ℕ :=
  let n := c.toNat
  if 48 ≤ n ∧ n ≤ 57 then some (n - 48)
  else if 65 ≤ n ∧ n ≤ 70 then some (n - 55)
  else if 97 ≤ n ∧ n ≤ 102 then some (n - 87)
  else none

/-- Model of Go url.QueryUnescape on a query component: a plus becomes a
space, a percent must be followed by two hexadecimal digits and decodes to
the escaped byte, anything else passes through; a malformed escape is an
error, modelled as none. -/
def unescapeList : List Char → Option (List Char)
  | [] => some []
  | c :: rest =>
    if c = '+' then (unescapeList rest).map (' ' :: ·)
    else if c = '%' then
      match rest with
      | a :: b :: rest2 =>
        match hexVal a, hexVal b with
        | some x, some y => (unescapeList rest2).map (Char.ofNat (16 * x + y) :: ·)
        | _, _ => none
      | _ => none
    else (unescapeList rest).map (c :: ·)

/-- Split at the first occurrence of the separator, as Go strings.Cut:
the parts before and after it, or none when the separator does not
occur. -/
def cutAt (sep : Char) : List Char → Option (List Char × List Char)
  | [] => none
  | c :: cs =>
    if c = sep then some ([], cs)
    else (cutAt sep cs).map (fun q => (c :: q.1, q.2))

/-- One segment of a query string, as treated inside Go url.ParseQuery: a
segment containing a semicolon is an error and yields nothing, an empty
segment is skipped, otherwise the segment is cut at the first equals sign
and both halves are unescaped, the pair being dropped when either
unescape fails. -/
def parseQuerySeg (seg : List Char) : Option (String × String) :=
  if seg.contains ';' then none
  else if seg = [] then none
  else
    match cutAt '=' seg with
    | some q =>
      match unescapeList q.1, unescapeList q.2 with
      | some k, some v => some (⟨k⟩, ⟨v⟩)
      | _, _ => none
    | none =>
      match unescapeList seg with
      | some k => some (⟨k⟩, "")
      | none => none

/-- Model of Go url.ParseQuery: split the raw query on ampersands and
convert each segment, keeping the order of appearance. -/
def parseQueryPairs (q : List Char) : List (String × String) :=
  (splitCh '&' q).filterMap parseQuerySeg

/-- Model of Values.Get: the first value stored for the key, or the empty
string when the key is absent. -/
def queryGet (q : String) (key : String) : String :=
  match (parseQueryPairs q.toList).filter (fun kv => kv.1 = key) with
  | [] => ""
  | kv :: _ => kv.2

/-- The query component of the follow-up link built by formatMenuHTML for
records rendered against the main navigation endpoint (part_003 lines 148
to 151, 293, 300 and 382): the item type, host and port are interpolated
verbatim into the format string and only the selector is passed through
url.QueryEscape. -/
def navLinkQuery (itemType : Char) (host port selector : String) : String :=
  "type=" ++ String.singleton itemType ++ "&host=" ++ host ++ "&port=" ++
    port ++ "&selector=" ++ queryEscape selector

/-- The full href of such a link. -/
def navLinkHref (itemType : Char) (host port selector : String) : String :=
  "/?" ++ navLinkQuery itemType host port selector

/-- The query component the local HTTP server parses out of a link target:
everything after the first question mark and before the first number
sign. -/
def hrefQueryPart (href : String) : String :=
  match cutAt '?' href.toList with
  | none => ""
  | some q => ⟨q.2.takeWhile (· ≠ '#')⟩

/-- Host, port and selector resolution of serveGopher for a request whose
query carries no uri parameter (part_003 lines 428 to 434 and 457 to 468):
fields missing from the query fall back to the default gopher host, the
default port 70 and the root selector. -/
def serveGopherParams (q : String) : String × String × String :=
  (if queryGet q "host" = "" then "freeshell.org" else queryGet q "host",
   if queryGet q "port" = "" then "70" else queryGet q "port",
   if queryGet q "selector" = "" then "/" else queryGet q "selector")

/-- C7 counterexample: a parsed record of the navigable menu type whose
host field contains an ampersand renders to a follow-up link whose
parameters, parsed the way serveGopher parses them, give back host a
instead of the original a&b, so the round trip fails for such records. -/
theorem C7_counterexample :
    formatMenuRecords "1X\t/s\ta&b\t70" "example.org" "70" =
      some [⟨'1', "X", "/s", "a&b", "70"⟩] ∧
    serveGopherParams (hrefQueryPart (navLinkHref '1' "a&b" "70" "/s")) =
      ("a", "70", "/s") := by
  constructor
  · decide
  · decide

/-! ### Lemmas about escaping and query parsing -/

theorem unreserved_not_special (c : Char) (h : isQueryUnreserved c = true) :
    c ≠ '&' ∧ c ≠ ';' ∧ c ≠ '#' ∧ c ≠ '%' ∧ c ≠ '+' := by
  refine ⟨fun hx => ?_, fun hx => ?_, fun hx => ?_, fun hx => ?_, fun hx => ?_⟩ <;>
    (subst hx; exact absurd h (by decide))

theorem alphanum_not_special (c : Char) (h : c.isAlphanum = true) :
    c ≠ '&' ∧ c ≠ ';' ∧ c ≠ '#' ∧ c ≠ '%' ∧ c ≠ '+' ∧ c ≠ '=' := by
  refine ⟨fun hx => ?_, fun hx => ?_, fun hx => ?_, fun hx => ?_, fun hx => ?_,
    fun hx => ?_⟩ <;> (subst hx; exact absurd h (by decide))

theorem upperHexDigit_unreserved (n : ℕ) (h : n < 16) :
    isQueryUnreserved (upperHexDigit n) = true := by
  interval_cases n <;> decide

theorem queryEscapeChar_not_special (c : Char) :
    ∀ x ∈ queryEscapeChar c, x ≠ '&' ∧ x ≠ ';' ∧ x ≠ '#' := by
  intro x hx
  unfold queryEscapeChar at hx
  by_cases hu : isQueryUnreserved c = true
  · rw [if_pos hu, List.mem_singleton] at hx
    subst hx
    obtain ⟨h1, h2, h3, _, _⟩ := unreserved_not_special _ hu
    exact ⟨h1, h2, h3⟩
  · rw [if_neg hu] at hx
    by_cases hsp : c = ' '
    · rw [if_pos hsp, List.mem_singleton] at hx
      subst hx
      exact ⟨by decide, by decide, by decide⟩
    · rw [if_neg hsp] at hx
      rcases List.mem_cons.mp hx with rfl | hx2
      · exact ⟨by decide, by decide, by decide⟩
      · have hmem : x = upperHexDigit (c.toNat / 16 % 16) ∨
            x = upperHexDigit (c.toNat % 16) := by
          rcases List.mem_cons.mp hx2 with rfl | hx3
          · exact Or.inl rfl
          · exact Or.inr (List.mem_singleton.mp hx3)
        have hun : isQueryUnreserved x = true := by
          rcases hmem with rfl | rfl
          · exact upperHexDigit_unreserved _ (Nat.mod_lt _ (by norm_num))
          · exact upperHexDigit_unreserved _ (Nat.mod_lt _ (by norm_num))
        obtain ⟨h1, h2, h3, _, _⟩ := unreserved_not_special x hun
        exact ⟨h1, h2, h3⟩

theorem mem_queryEscape_not_special (s : String) :
    ∀ x ∈ (queryEscape s).toList, x ≠ '&' ∧ x ≠ ';' ∧ x ≠ '#' := by
  intro x hx
  have hx2 : x ∈ (s.toList.map queryEscapeChar).flatten := hx
  rw [List.mem_flatten] at hx2
  obtain ⟨l, hl, hxl⟩ := hx2
  rw [List.mem_map] at hl
  obtain ⟨c, hcm, rfl⟩ := hl
  exact queryEscapeChar_not_special c x hxl

theorem unescapeList_cons_eq (c : Char) (rest : List Char) :
    unescapeList (c :: rest) =
      if c = '+' then (unescapeList rest).map (' ' :: ·)
      else if c = '%' then
        match rest with
        | a :: b :: rest2 =>
          match hexVal a, hexVal b with
          | some x, some y =>
            (unescapeList rest2).map (Char.ofNat (16 * x + y) :: ·)
          | _, _ => none
        | _ => none
      else (unescapeList rest).map (c :: ·) := by
  conv_lhs => rw [unescapeList.eq_def]

theorem unescapeList_cons_plain (c : Char) (rest : List Char)
    (h1 : c ≠ '+') (h2 : c ≠ '%') :
    unescapeList (c :: rest) = (unescapeList rest).map (c :: ·) := by
  rw [unescapeList_cons_eq, if_neg h1, if_neg h2]

theorem unescapeList_cons_plus (rest : List Char) :
    unescapeList ('+' :: rest) = (unescapeList rest).map (' ' :: ·) := by
  rw [unescapeList_cons_eq, if_pos rfl]

theorem unescapeList_percent (a b : Char) (rest : List Char) (x y : ℕ)
    (ha : hexVal a = some x) (hb : hexVal b = some y) :
    unescapeList ('%' :: a :: b :: rest) =
      (unescapeList rest).map (Char.ofNat (16 * x + y) :: ·) := by
  rw [unescapeList_cons_eq, if_neg (by decide : ¬ ('%' = '+')), if_pos rfl]
  show (match hexVal a, hexVal b with
    | some x, some y => (unescapeList rest).map (Char.ofNat (16 * x + y) :: ·)
    | _, _ => none) = (unescapeList rest).map (Char.ofNat (16 * x + y) :: ·)
  rw [ha, hb]

theorem unescapeList_plain (l : List Char)
    (h : ∀ c ∈ l, c ≠ '+' ∧ c ≠ '%') : unescapeList l = some l := by
  induction l with
  | nil => rfl
  | cons c cs ih =>
    obtain ⟨h1, h2⟩ := h c (List.mem_cons_self c cs)
    rw [unescapeList_cons_plain c cs h1 h2,
      ih (fun x hx => h x (List.mem_cons_of_mem c hx))]
    rfl

theorem hexVal_upperHexDigit :
    ∀ n : ℕ, n < 16 → hexVal (upperHexDigit n) = some n := by decide

theorem unescape_escape (l : List Char) (h : ∀ c ∈ l, c.toNat < 128) :
    unescapeList (l.map queryEscapeChar).flatten = some l := by
  induction l with
  | nil => rfl
  | cons c cs ih =>
    have hc : c.toNat < 128 := h c (List.mem_cons_self c cs)
    have ihr := ih (fun x hx => h x (List.mem_cons_of_mem c hx))
    rw [List.map_cons, List.flatten_cons]
    by_cases hu : isQueryUnreserved c = true
    · have hesc : queryEscapeChar c = [c] := by
        unfold queryEscapeChar
        rw [if_pos hu]
      obtain ⟨_, _, _, hn4, hn5⟩ := unreserved_not_special c hu
      rw [hesc, List.cons_append, List.nil_append,
        unescapeList_cons_plain c _ hn5 hn4, ihr]
      rfl
    · by_cases hsp : c = ' '
      · subst hsp
        have hesc : queryEscapeChar ' ' = ['+'] := rfl
        rw [hesc, List.cons_append, List.nil_append, unescapeList_cons_plus,
          ihr]
        rfl
      · have hesc : queryEscapeChar c =
            ['%', upperHexDigit (c.toNat / 16 % 16),
              upperHexDigit (c.toNat % 16)] := by
          unfold queryEscapeChar
          rw [if_neg hu, if_neg hsp]
        rw [hesc]
        simp only [List.cons_append, List.nil_append]
        rw [unescapeList_percent _ _ _ _ _
          (hexVal_upperHexDigit _ (Nat.mod_lt _ (by norm_num)))
          (hexVal_upperHexDigit _ (Nat.mod_lt _ (by norm_num))), ihr]
        have hchar : Char.ofNat (16 * (c.toNat / 16 % 16) + c.toNat % 16) = c := by
          have h1 : c.toNat / 16 % 16 = c.toNat / 16 :=
            Nat.mod_eq_of_lt (by omega)
          rw [h1, Nat.div_add_mod]
          exact Char.ofNat_toNat c
        rw [hchar]
        rfl

theorem cutAt_append (sep : Char) (l1 l2 : List Char)
    (h : ∀ c ∈ l1, c ≠ sep) :
    cutAt sep (l1 ++ sep :: l2) = some (l1, l2) := by
  induction l1 with
  | nil => simp [cutAt]
  | cons c cs ih =>
    have hc : c ≠ sep := h c (List.mem_cons_self c cs)
    rw [List.cons_append]
    simp only [cutAt]
    rw [if_neg hc, ih (fun x hx => h x (List.mem_cons_of_mem c hx))]
    rfl

theorem contains_eq_false_char (l : List Char) (a : Char)
    (h : ∀ c ∈ l, c ≠ a) : l.contains a = false := by
  induction l with
  | nil => rfl
  | cons c cs ih =>
    have hc : ¬ (a = c) := fun hx => (h c (List.mem_cons_self c cs)) hx.symm
    have ihr := ih (fun x hx => h x (List.mem_cons_of_mem c hx))
    rw [List.contains_cons, ihr, Bool.or_false]
    exact beq_eq_false_iff_ne.mpr hc

theorem takeWhile_all_eq_self (l : List Char) (p : Char → Bool)
    (h : ∀ c ∈ l, p c = true) : l.takeWhile p = l := by
  induction l with
  | nil => rfl
  | cons c cs ih =>
    rw [List.takeWhile_cons, if_pos (h c (List.mem_cons_self c cs)),
      ih (fun x hx => h x (List.mem_cons_of_mem c hx))]

theorem parseQuerySeg_keyval (key val val2 : List Char)
    (hsemi : ∀ c ∈ key ++ '=' :: val, c ≠ ';')
    (hkeyEq : ∀ c ∈ key, c ≠ '=')
    (hkeyU : unescapeList key = some key)
    (hvalU : unescapeList val = some val2) :
    parseQuerySeg (key ++ '=' :: val) = some (⟨key⟩, ⟨val2⟩) := by
  have hcont : (key ++ '=' :: val).contains ';' = false :=
    contains_eq_false_char _ _ hsemi
  have hc1 : ¬ ((key ++ '=' :: val).contains ';' = true) := by
    rw [hcont]
    decide
  have hnil : ¬ (key ++ '=' :: val = []) := by simp
  unfold parseQuerySeg
  rw [if_neg hc1, if_neg hnil, cutAt_append '=' key val hkeyEq]
  show (match unescapeList key, unescapeList val with
    | some k, some v => some ((⟨k⟩ : String), (⟨v⟩ : String))
    | _, _ => none) = some (⟨key⟩, ⟨val2⟩)
  rw [hkeyU, hvalU]

/-- C7 (amended): for a record of a navigable type rendered against the
main navigation endpoint, whose type tag is alphanumeric, whose host and
port are nonempty ASCII strings free of the query metacharacters
ampersand, semicolon, percent, plus and number sign, and whose selector is
a nonempty ASCII string, the follow-up link built by the renderer carries
no uri parameter and re-parsing its query the way serveGopher does
reproduces the original host, port and selector.  The original claim
without these restrictions fails because host and port are interpolated
into the query unescaped. -/
theorem C7_navigable_link_roundtrip (t : Char) (host port selector : String)
    (ht : t.isAlphanum = true)
    (hh : ∀ c ∈ host.toList, c.toNat < 128 ∧
      c ∉ (['&', ';', '%', '+', '#'] : List Char))
    (hp : ∀ c ∈ port.toList, c.toNat < 128 ∧
      c ∉ (['&', ';', '%', '+', '#'] : List Char))
    (hs : ∀ c ∈ selector.toList, c.toNat < 128)
    (hhne : host ≠ "") (hpne : port ≠ "") (hsne : selector ≠ "") :
    queryGet (hrefQueryPart (navLinkHref t host port selector)) "uri" = "" ∧
    serveGopherParams (hrefQueryPart (navLinkHref t host port selector)) =
      (host, port, selector) := by
  have hostFacts : ∀ c ∈ host.toList,
      c ≠ '&' ∧ c ≠ ';' ∧ c ≠ '%' ∧ c ≠ '+' ∧ c ≠ '#' := by
    intro c hc
    obtain ⟨-, hnot⟩ := hh c hc
    refine ⟨fun hx => hnot ?_, fun hx => hnot ?_, fun hx => hnot ?_,
      fun hx => hnot ?_, fun hx => hnot ?_⟩ <;> simp [hx]
  have portFacts : ∀ c ∈ port.toList,
      c ≠ '&' ∧ c ≠ ';' ∧ c ≠ '%' ∧ c ≠ '+' ∧ c ≠ '#' := by
    intro c hc
    obtain ⟨-, hnot⟩ := hp c hc
    refine ⟨fun hx => hnot ?_, fun hx => hnot ?_, fun hx => hnot ?_,
      fun hx => hnot ?_, fun hx => hnot ?_⟩ <;> simp [hx]
  have tFacts := alphanum_not_special t ht
  have hshape : (navLinkQuery t host port selector).toList =
      ("type=".toList ++ [t]) ++ '&' :: (("host=".toList ++ host.toList) ++
        '&' :: (("port=".toList ++ port.toList) ++ '&' ::
          ("selector=".toList ++ (queryEscape selector).toList))) := by
    unfold navLinkQuery
    simp only [toList_append,
      (show (String.singleton t).toList = [t] from rfl),
      (show ("&host=" : String).toList = '&' :: "host=".toList from rfl),
      (show ("&port=" : String).toList = '&' :: "port=".toList from rfl),
      (show ("&selector=" : String).toList = '&' :: "selector=".toList from rfl),
      List.cons_append, List.append_assoc]
  have hampT : ∀ c ∈ "type=".toList ++ [t], c ≠ '&' :=
    forall_mem_append_char (by decide)
      (forall_mem_cons_char tFacts.1 (fun c hc => absurd hc (List.not_mem_nil c)))
  have hampH : ∀ c ∈ "host=".toList ++ host.toList, c ≠ '&' :=
    forall_mem_append_char (by decide) (fun c hc => (hostFacts c hc).1)
  have hampP : ∀ c ∈ "port=".toList ++ port.toList, c ≠ '&' :=
    forall_mem_append_char (by decide) (fun c hc => (portFacts c hc).1)
  have hampS : ∀ c ∈ "selector=".toList ++ (queryEscape selector).toList,
      c ≠ '&' :=
    forall_mem_append_char (by decide)
      (fun c hc => ((mem_queryEscape_not_special selector) c hc).1)
  have hsplit : splitCh '&' ((navLinkQuery t host port selector).toList) =
      ["type=".toList ++ [t], "host=".toList ++ host.toList,
        "port=".toList ++ port.toList,
        "selector=".toList ++ (queryEscape selector).toList] := by
    rw [hshape, splitCh_append '&' _ _ hampT, splitCh_append '&' _ _ hampH,
      splitCh_append '&' _ _ hampP, splitCh_no_sep '&' _ hampS]
  have hseg0 : parseQuerySeg ("type=".toList ++ [t]) =
      some ("type", String.singleton t) := by
    have hform : ("type=".toList ++ [t]) = "type".toList ++ '=' :: [t] := rfl
    rw [hform, parseQuerySeg_keyval "type".toList [t] [t]
      (forall_mem_append_char (by decide)
        (forall_mem_cons_char (by decide)
          (forall_mem_cons_char tFacts.2.1
            (fun c hc => absurd hc (List.not_mem_nil c)))))
      (by decide) (by decide)
      (unescapeList_plain [t]
        (forall_mem_cons_char ⟨tFacts.2.2.2.2.1, tFacts.2.2.2.1⟩
          (fun c hc => absurd hc (List.not_mem_nil c))))]
    rfl
  have hseg1 : parseQuerySeg ("host=".toList ++ host.toList) =
      some ("host", host) := by
    have hform : ("host=".toList ++ host.toList) =
        "host".toList ++ '=' :: host.toList := rfl
    rw [hform, parseQuerySeg_keyval "host".toList host.toList host.toList
      (forall_mem_append_char (by decide)
        (forall_mem_cons_char (by decide) (fun c hc => (hostFacts c hc).2.1)))
      (by decide) (by decide)
      (unescapeList_plain host.toList
        (fun c hc => ⟨(hostFacts c hc).2.2.2.1, (hostFacts c hc).2.2.1⟩))]
    rfl
  have hseg2 : parseQuerySeg ("port=".toList ++ port.toList) =
      some ("port", port) := by
    have hform : ("port=".toList ++ port.toList) =
        "port".toList ++ '=' :: port.toList := rfl
    rw [hform, parseQuerySeg_keyval "port".toList port.toList port.toList
      (forall_mem_append_char (by decide)
        (forall_mem_cons_char (by decide) (fun c hc => (portFacts c hc).2.1)))
      (by decide) (by decide)
      (unescapeList_plain port.toList
        (fun c hc => ⟨(portFacts c hc).2.2.2.1, (portFacts c hc).2.2.1⟩))]
    rfl
  have hseg3 : parseQuerySeg
      ("selector=".toList ++ (queryEscape selector).toList) =
      some ("selector", selector) := by
    have hform : ("selector=".toList ++ (queryEscape selector).toList) =
        "selector".toList ++ '=' :: (queryEscape selector).toList := rfl
    rw [hform, parseQuerySeg_keyval "selector".toList
      (queryEscape selector).toList selector.toList
      (forall_mem_append_char (by decide)
        (forall_mem_cons_char (by decide)
          (fun c hc => ((mem_queryEscape_not_special selector) c hc).2.1)))
      (by decide) (by decide)
      (unescape_escape selector.toList hs)]
    rfl
  have hpairs : parseQueryPairs (navLinkQuery t host port selector).toList =
      [("type", String.singleton t), ("host", host), ("port", port),
        ("selector", selector)] := by
    unfold parseQueryPairs
    rw [hsplit]
    simp only [List.filterMap_cons, hseg0, hseg1, hseg2, hseg3,
      List.filterMap_nil]
  have hQhash : ∀ c ∈ (navLinkQuery t host port selector).toList, c ≠ '#' := by
    simp only [hshape]
    refine forall_mem_append_char
      (forall_mem_append_char (by decide)
        (forall_mem_cons_char tFacts.2.2.1
          (fun c hc => absurd hc (List.not_mem_nil c))))
      (forall_mem_cons_char (by decide)
        (forall_mem_append_char
          (forall_mem_append_char (by decide)
            (fun c hc => (hostFacts c hc).2.2.2.2))
          (forall_mem_cons_char (by decide)
            (forall_mem_append_char
              (forall_mem_append_char (by decide)
                (fun c hc => (portFacts c hc).2.2.2.2))
              (forall_mem_cons_char (by decide)
                (forall_mem_append_char (by decide)
                  (fun c hc =>
                    ((mem_queryEscape_not_special selector) c hc).2.2)))))))
  have hhref : hrefQueryPart (navLinkHref t host port selector) =
      navLinkQuery t host port selector := by
    have hlist : (navLinkHref t host port selector).toList =
        '/' :: '?' :: (navLinkQuery t host port selector).toList := by
      unfold navLinkHref
      rw [toList_append]
      rfl
    have hcut : cutAt '?' (navLinkHref t host port selector).toList =
        some (['/'], (navLinkQuery t host port selector).toList) := by
      rw [hlist]
      simp [cutAt]
    unfold hrefQueryPart
    rw [hcut]
    show (⟨((navLinkQuery t host port selector).toList).takeWhile
      (fun c => c ≠ '#')⟩ : String) = _
    rw [takeWhile_all_eq_self _ _ (fun c hc => decide_eq_true (hQhash c hc))]
    exact mk_toList _
  rw [hhref]
  have hgetH : queryGet (navLinkQuery t host port selector) "host" = host := by
    unfold queryGet
    rw [hpairs]
    simp
  have hgetP : queryGet (navLinkQuery t host port selector) "port" = port := by
    unfold queryGet
    rw [hpairs]
    simp
  have hgetS : queryGet (navLinkQuery t host port selector) "selector" =
      selector := by
    unfold queryGet
    rw [hpairs]
    simp
  constructor
  · unfold queryGet
    rw [hpairs]
    simp
  · unfold serveGopherParams
    rw [hgetH, hgetP, hgetS, if_neg hhne, if_neg hpne, if_neg hsne]

/-- Witness for C7 at a concrete menu record whose selector needs
escaping. -/
theorem C7_witness :
    queryGet (hrefQueryPart (navLinkHref '1' "example.org" "70" "/sub dir"))
      "uri" = "" ∧
    serveGopherParams
      (hrefQueryPart (navLinkHref '1' "example.org" "70" "/sub dir")) =
      ("example.org", "70", "/sub dir") :=
  C7_navigable_link_roundtrip '1' "example.org" "70" "/sub dir"
    (by decide) (by decide) (by decide) (by decide) (by decide) (by decide)
    (by decide)
